import Mathlib

/-!
Verification development for the instruction-building and grounding-parsing
core of the document-intelligence service
(source: src/services/deepseek-ocr-service/main.py).

The embedding models, character by character:
  * build_prompt        (source lines 89-152),
  * the DET_BLOCK search (the compiled pattern at lines 163-166 together
    with the backtracking search semantics of the re module: a lazy label
    group, greedy bracket capture, and non-overlapping left-to-right scan),
  * clean_grounding_text (lines 168-179),
  * parse_detections     (lines 181-233), including the numeric-list
    fragment of ast.literal_eval and the exact IEEE-754 double rounding of
    int(float(b) / 999 * dim),
  * the display-text fallback of the response assembly (lines 345-347).

Strings are modelled as lists of characters; the whitespace class is the
ASCII fragment of the re module and str.strip classes (claims do not hinge
on non-ASCII whitespace).  The literal evaluator is modelled on the
fragment of ast.literal_eval reachable from the captured bracket
expressions that the claims exercise: nested lists of optionally signed
integer literals with whitespace and trailing commas; every other captured
text fails, matching the except branch of the source.  Double arithmetic
is modelled exactly (round to nearest, ties to even, 53-bit significand,
no overflow or subnormal handling, which the exercised ranges never
reach).
-/

/-- ASCII fragment of the whitespace class used by the re module and
str.strip in the source. -/
def isSpc (c : Char) : Bool :=
  c = ' ' || c = '\t' || c = '\n' || c = '\r' || c = '\x0b' || c = '\x0c'

/-- Model of str.strip on character lists: drop whitespace from both ends. -/
def pyStripL (s : List Char) : List Char :=
  ((s.dropWhile isSpc).reverse.dropWhile isSpc).reverse

/-- Model of str.strip on strings. -/
def pyStripS (s : String) : String :=
  String.mk (pyStripL s.data)

/-- Model of str.join as used at source line 152: sep.join(parts). -/
def pyJoinS (sep : String) : List String → String
  | [] => ""
  | [p] => p
  | p :: q :: rest => p ++ sep ++ pyJoinS sep (q :: rest)

/-- The twelve capability mode names of the dispatch chain at source
lines 104-144, in source order. -/
def modeNames : List String :=
  ["plain_ocr", "markdown", "tables_csv", "tables_md", "kv_json",
   "figure_chart", "find_ref", "layout_map", "pii_redact",
   "multilingual", "describe", "freeform"]

/-- Source line 99: the three modes that force the grounding marker. -/
def groundingModes : List String := ["find_ref", "layout_map", "pii_redact"]

/-- The instruction variable of build_prompt (source lines 103-146): the
mode dispatch chain, before the optional caption suffix is appended. -/
def instructionFor (mode : String) (user_prompt : String)
    (find_term : Option String) (schema : Option String) : String :=
  if mode = "plain_ocr" then "Free OCR."
  else if mode = "markdown" then "Convert the document to markdown."
  else if mode = "tables_csv" then
    "Extract every table and output CSV only. Use commas, minimal quoting. If multiple tables, separate with a line containing \x27---\x27."
  else if mode = "tables_md" then
    "Extract every table as GitHub-flavored Markdown tables. Output only the tables."
  else if mode = "kv_json" then
    -- schema.strip() if schema else "{}": None and the empty string both
    -- fall back; any other string is stripped (line 116).
    let schema_text :=
      match schema with
      | none => "\x7b\x7d"
      | some s => if s = "" then "\x7b\x7d" else pyStripS s
    "Extract key fields and return strict JSON only. Use this schema (fill the values): " ++ schema_text
  else if mode = "figure_chart" then
    "Parse the figure. First extract any numeric series as a two-column table (x,y). Then summarize the chart in 2 sentences. Output the table, then a line \x27---\x27, then the summary."
  else if mode = "find_ref" then
    -- (find_term or "").strip() or "Total" (line 127).
    let t := match find_term with | none => "" | some s => s
    let key := if pyStripS t = "" then "Total" else pyStripS t
    "Locate <|ref|>" ++ key ++ "<|/ref|> in the image."
  else if mode = "layout_map" then
    "Return a JSON array of blocks with fields \x7b\"type\":[\"title\",\"paragraph\",\"table\",\"figure\"],\"box\":[x1,y1,x2,y2]\x7d. Do not include any text content."
  else if mode = "pii_redact" then
    "Find all occurrences of emails, phone numbers, postal addresses, and IBANs. Return a JSON array of objects \x7blabel, text, box:[x1,y1,x2,y2]\x7d."
  else if mode = "multilingual" then
    "Free OCR. Detect the language automatically and output in the same script."
  else if mode = "describe" then
    "Describe this image. Focus on visible key elements."
  else if mode = "freeform" then
    -- user_prompt.strip() if user_prompt else "OCR this image." (line 144).
    if user_prompt = "" then "OCR this image." else pyStripS user_prompt
  else "OCR this image."

/-- The instruction after the optional caption suffix of source lines
148-149 has been appended. -/
def instructionWithCaption (mode : String) (user_prompt : String)
    (find_term : Option String) (schema : Option String)
    (include_caption : Bool) : String :=
  let instruction := instructionFor mode user_prompt find_term schema
  if include_caption && !(mode = "describe") then
    instruction ++ "\nThen add a one-paragraph description of the image."
  else instruction

/-- The parts list built by build_prompt (source lines 98-101 and 151):
the image placeholder, then the grounding marker when requested by flag or
forced by the mode, then the instruction. -/
def promptParts (mode : String) (user_prompt : String) (grounding : Bool)
    (find_term : Option String) (schema : Option String)
    (include_caption : Bool) : List String :=
  ["<image>"]
    ++ (if grounding || groundingModes.contains mode then ["<|grounding|>"] else [])
    ++ [instructionWithCaption mode user_prompt find_term schema include_caption]

/-- build_prompt (source lines 89-152): newline-join of the parts list. -/
def build_prompt (mode : String) (user_prompt : String) (grounding : Bool)
    (find_term : Option String) (schema : Option String)
    (include_caption : Bool) : String :=
  pyJoinS "\n" (promptParts mode user_prompt grounding find_term schema include_caption)

/-- Structural token: the label-open delimiter of the DET_BLOCK pattern. -/
def refOpenT : List Char := "<|ref|>".data

/-- Structural token: the label-close delimiter. -/
def refCloseT : List Char := "<|/ref|>".data

/-- Structural token: the detection-open delimiter. -/
def detOpenT : List Char := "<|det|>".data

/-- Structural token: the detection-close delimiter. -/
def detCloseT : List Char := "<|/det|>".data

/-- Structural token: the grounding marker. -/
def groundTokT : List Char := "<|grounding|>".data

/-- Match a literal token at the head of a list; on success return the
remainder.  This is the literal-matching step of the pattern engine. -/
def chopTok : List Char → List Char → Option (List Char)
  | [], s => some s
  | _ :: _, [] => none
  | t :: ts, c :: cs => if t = c then chopTok ts cs else none

/-- Whether a literal token occurs at the head of a list. -/
def leadTok (t s : List Char) : Bool :=
  (chopTok t s).isSome

/-- Number of positions of s (including the final empty suffix) at which
the token t occurs. -/
def countTok : List Char → List Char → Nat
  | t, [] => if leadTok t [] then 1 else 0
  | t, c :: cs => (if leadTok t (c :: cs) then 1 else 0) + countTok t cs

/-- The greedy tail of the DET_BLOCK pattern after the opening bracket of
the coords group: like the regex fragment dot-star then close-bracket then
whitespace then detection-close, the scan prefers the rightmost closing
bracket that is followed (after whitespace) by the detection-close token,
returning the text before that bracket and the remainder after the
detection-close token. -/
def greedyClose : List Char → Option (List Char × List Char)
  | [] => none
  | c :: cs =>
    match greedyClose cs with
    | some (mid, rest) => some (c :: mid, rest)
    | none =>
      if c = ']' then
        match chopTok detCloseT (cs.dropWhile isSpc) with
        | some rest => some ([], rest)
        | none => none
      else none

/-- After the label-close token: match whitespace, the detection-open
token, whitespace, and the greedy bracketed coords group of DET_BLOCK.
Returns the captured coords group (with its outer brackets, as in the
source pattern) and the remainder after the detection-close token. -/
def tryDet (s : List Char) : Option (List Char × List Char) :=
  match chopTok detOpenT (s.dropWhile isSpc) with
  | none => none
  | some s2 =>
    match s2.dropWhile isSpc with
    | '[' :: s4 =>
      match greedyClose s4 with
      | some (mid, rest) => some ('[' :: (mid ++ [']']), rest)
      | none => none
    | _ => none

/-- The lazy label group of DET_BLOCK: starting right after the label-open
token, try the shortest label first; at each split point the label-close
token and the rest of the pattern must match, otherwise the label is
extended by one character (the backtracking semantics of a lazy dot-star
group).  acc holds the reversed label consumed so far. -/
def lazyLabel : List Char → List Char → Option (List Char × List Char × List Char)
  | _, [] => none
  | acc, c :: cs =>
    match (chopTok refCloseT (c :: cs)).bind tryDet with
    | some (coords, rest) => some (acc.reverse, coords, rest)
    | none => lazyLabel (c :: acc) cs

/-- Match the full DET_BLOCK pattern at the start of s; on success return
the captured label group, the captured coords group and the remainder. -/
def matchAt (s : List Char) : Option (List Char × List Char × List Char) :=
  match chopTok refOpenT s with
  | none => none
  | some s1 => lazyLabel [] s1

/-- Fueled engine of DET_BLOCK.finditer: scan left to right, at each
position try a match; on success emit the captured groups and resume after
the match (non-overlapping), otherwise advance one character. -/
def findMatchesGo : Nat → List Char → List (List Char × List Char)
  | 0, _ => []
  | _ + 1, [] => []
  | f + 1, c :: cs =>
    match matchAt (c :: cs) with
    | some (lab, coords, rest) => (lab, coords) :: findMatchesGo f rest
    | none => findMatchesGo f cs

/-- DET_BLOCK.finditer (source lines 163-166, used at line 189): the list
of (label, coords) captures in scan order. -/
def findMatches (s : List Char) : List (List Char × List Char) :=
  findMatchesGo (s.length + 1) s

/-- Fueled engine of the first re.sub of clean_grounding_text (source
lines 171-176): each match of the pattern is replaced by its captured
label group, text outside matches is copied. -/
def subGo : Nat → List Char → List Char
  | 0, _ => []
  | _ + 1, [] => []
  | f + 1, c :: cs =>
    match matchAt (c :: cs) with
    | some (lab, _, rest) => lab ++ subGo f rest
    | none => c :: subGo f cs

/-- Fueled engine of the second re.sub of clean_grounding_text (source
line 178): remove every occurrence of the grounding marker, scanning left
to right without rescanning replaced text. -/
def removeMarksGo : Nat → List Char → List Char
  | 0, _ => []
  | _ + 1, [] => []
  | f + 1, c :: cs =>
    match chopTok groundTokT (c :: cs) with
    | some rest => removeMarksGo f rest
    | none => c :: removeMarksGo f cs

/-- The second re.sub of clean_grounding_text: marker removal. -/
def removeMarks (s : List Char) : List Char :=
  removeMarksGo (s.length + 1) s

/-- clean_grounding_text (source lines 168-179): substitute every pattern
match by its captured label, then remove every grounding marker, then
strip the result. -/
def clean_grounding_text (s : List Char) : List Char :=
  pyStripL (removeMarks (subGo (s.length + 1) s))

/-- Values of the numeric-list fragment of ast.literal_eval that the
captured bracket expressions can denote: integers and nested lists. -/
inductive PyVal where
  | int (n : ℤ) : PyVal
  | list (l : List PyVal) : PyVal

/-- Drop leading whitespace, as the literal tokenizer does between
tokens. -/
def skipWs (s : List Char) : List Char := s.dropWhile isSpc

/-- Digit character test (the decimal digits of the numeric fragment). -/
def isDig (c : Char) : Bool := 48 ≤ c.toNat && c.toNat ≤ 57

/-- Numeric value of a digit character. -/
def digVal (c : Char) : ℕ := c.toNat - 48

/-- Consume a maximal run of digit characters, folding them onto an
accumulator. -/
def grabDigits : ℕ → List Char → ℕ × List Char
  | acc, [] => (acc, [])
  | acc, c :: cs =>
    if isDig c then grabDigits (acc * 10 + digVal c) cs else (acc, c :: cs)

/-- Parse an optionally signed integer literal (a Constant possibly under
one unary sign, the numeric fragment the captures exercise). -/
def parseIntLit (s : List Char) : Option (ℤ × List Char) :=
  match s with
  | [] => none
  | c :: cs =>
    if c = '-' then
      match skipWs cs with
      | [] => none
      | d :: ds =>
        if isDig d then
          let p := grabDigits 0 (d :: ds)
          some (-(p.1 : ℤ), p.2)
        else none
    else if c = '+' then
      match skipWs cs with
      | [] => none
      | d :: ds =>
        if isDig d then
          let p := grabDigits 0 (d :: ds)
          some ((p.1 : ℤ), p.2)
        else none
    else if isDig c then
      let p := grabDigits 0 (c :: cs)
      some ((p.1 : ℤ), p.2)
    else none

mutual

/-- Fueled recursive-descent parse of one value: a bracketed list or a
signed integer literal. -/
def parseVal : Nat → List Char → Option (PyVal × List Char)
  | 0, _ => none
  | f + 1, s =>
    match skipWs s with
    | [] => none
    | c :: rest =>
      if c = '[' then (parseItems f (skipWs rest)).map fun p => (PyVal.list p.1, p.2)
      else (parseIntLit (c :: rest)).map fun p => (PyVal.int p.1, p.2)

/-- Fueled parse of the items of a list, positioned after the opening
bracket (and any whitespace): the empty list, or comma-separated values
with an optional trailing comma. -/
def parseItems : Nat → List Char → Option (List PyVal × List Char)
  | 0, _ => none
  | f + 1, s =>
    match s with
    | [] => none
    | c :: rest =>
      if c = ']' then some ([], rest)
      else
        match parseVal f (c :: rest) with
        | none => none
        | some (v, r) =>
          match skipWs r with
          | [] => none
          | c2 :: r2 =>
            if c2 = ',' then
              match skipWs r2 with
              | [] => none
              | c3 :: r3 =>
                if c3 = ']' then some ([v], r3)
                else
                  match parseItems f (c3 :: r3) with
                  | some (vs, r4) => some (v :: vs, r4)
                  | none => none
            else if c2 = ']' then some ([v], r2)
            else none

end

/-- ast.literal_eval (source line 200) on the numeric-list fragment: the
whole captured text must parse as one value with nothing but whitespace
after it; any other text raises, which the except branch at source lines
228-230 turns into skipping the block. -/
def literalEval (s : List Char) : Option PyVal :=
  match parseVal (2 * s.length + 2) s with
  | some (v, r) => if skipWs r = [] then some v else none
  | none => none

/-- Round p / q (with p nonnegative, q positive) to the nearest integer,
ties to even: the significand-rounding step of IEEE-754 binary64
arithmetic. -/
def rndDiv (p q : ℤ) : ℤ :=
  let d := Int.ediv p q
  let r := Int.emod p q
  if 2 * r < q then d
  else if q < 2 * r then d + 1
  else if Int.emod d 2 = 0 then d else d + 1

/-- Binary-exponent search, upward branch: largest e with q * 2 ^ e ≤ p. -/
def eUp : Nat → ℤ → ℤ → ℤ → ℤ
  | 0, _, _, e => e
  | f + 1, p, q, e => if 2 * q ≤ p then eUp f p (2 * q) (e + 1) else e

/-- Binary-exponent search, downward branch. -/
def eDown : Nat → ℤ → ℤ → ℤ → ℤ
  | 0, _, _, e => e
  | f + 1, p, q, e => if p < q then eDown f (2 * p) q (e - 1) else e

/-- Exponent of p / q (both positive): the unique e with
2 ^ e ≤ p / q < 2 ^ (e + 1).  The fuel covers every magnitude below
2 ^ 1100, far beyond the double range the modelled values reach. -/
def dyExp (p q : ℤ) : ℤ :=
  if p < q then eDown 1100 p q 0 else eUp 1100 p q 0

/-- Round the positive rational p / q to the nearest IEEE-754 binary64
value (round to nearest, ties to even, 53-bit significand, no overflow or
subnormal handling), returned as an exact dyadic fraction
(numerator, power-of-two denominator). -/
def rdFrac (p q : ℤ) : ℤ × ℤ :=
  let e := dyExp p q
  if e ≤ 52 then
    let den : ℤ := 2 ^ (52 - e).toNat
    (rndDiv (p * den) q, den)
  else
    let f : ℤ := 2 ^ (e - 52).toNat
    (rndDiv p (q * f) * f, 1)

/-- The coordinate scaling of source lines 220-223:
int(float(b) / 999 * dim), with the two double roundings (the division
and the multiplication, after exact int-to-double conversions) modelled
exactly and the final int() truncating toward zero. -/
def scaleCoord (b dim : ℤ) : ℤ :=
  if b = 0 ∨ dim = 0 then 0
  else
    let sgn : ℤ := (if b < 0 then -1 else 1) * (if dim < 0 then -1 else 1)
    let fb := rdFrac (b.natAbs : ℤ) 1
    let q1 := rdFrac fb.1 (fb.2 * 999)
    let fw := rdFrac (dim.natAbs : ℤ) 1
    let q2 := rdFrac (q1.1 * fw.1) (q1.2 * fw.2)
    sgn * Int.ediv q2.1 q2.2

/-- One parsed grounding detection: the entry appended at source line 225. -/
structure Detection where
  label : List Char
  box : List ℤ
deriving DecidableEq

/-- Whether a parsed value is a number (isinstance int-or-float of source
line 206, on the integer fragment). -/
def isIntVal : PyVal → Bool
  | .int _ => true
  | .list _ => false

/-- The normalisation of source lines 203-215: a flat list of exactly four
numbers becomes a single-box list; any other list is used directly as the
box candidates; a non-list raises ValueError, which the except branch
turns into none. -/
def boxCandidates : PyVal → Option (List PyVal)
  | .list l => if l.length = 4 && l.all isIntVal then some [.list l] else some l
  | .int _ => none

/-- The per-box loop of source lines 218-227: a list entry with at least
four elements is scaled and appended; a non-list entry or a short list is
skipped; a non-numeric element among the first four makes float() raise,
which aborts the rest of the block while keeping the boxes already
appended. -/
def procBoxes (label : List Char) (w h : ℤ) : List PyVal → List Detection
  | [] => []
  | .int _ :: rest => procBoxes label w h rest
  | .list elems :: rest =>
    if 4 ≤ elems.length then
      match elems with
      | .int a :: .int b :: .int c :: .int d :: _ =>
        ⟨label, [scaleCoord a w, scaleCoord b h, scaleCoord c w, scaleCoord d h]⟩
          :: procBoxes label w h rest
      | _ => []
    else procBoxes label w h rest

/-- parse_detections (source lines 181-233): for every pattern match, in
scan order, strip the label, evaluate the coords capture, normalise the
candidates and scale each box; any failure inside a block contributes the
boxes appended before the failure and parsing continues with the next
match. -/
def parse_detections (text : List Char) (image_width image_height : ℤ) :
    List Detection :=
  (findMatches text).flatMap fun m =>
    let label := pyStripL m.1
    let coords_str := pyStripL m.2
    match literalEval coords_str with
    | none => []
    | some parsed =>
      match boxCandidates parsed with
      | none => []
      | some bcs => procBoxes label image_width image_height bcs

/-- Model of str.join on character lists, for the label fallback of the
response assembly. -/
def pyJoinL (sep : List Char) : List (List Char) → List Char
  | [] => []
  | [p] => p
  | p :: q :: rest => p ++ sep ++ pyJoinL sep (q :: rest)

/-- The comma-joined label list of source line 347. -/
def joinLabelsComma (boxes : List Detection) : List Char :=
  pyJoinL ", ".data (boxes.map Detection.label)

/-- The display-text fallback of the response assembly (source lines
345-347): when the cleaned display text is empty and boxes exist, show
the comma-joined labels instead. -/
def finalDisplayText (display_text : List Char) (boxes : List Detection) :
    List Char :=
  if display_text = [] ∧ boxes ≠ [] then joinLabelsComma boxes
  else display_text

/-- The decimal digit characters. -/
def digChar : Nat → Char
  | 0 => '0'
  | 1 => '1'
  | 2 => '2'
  | 3 => '3'
  | 4 => '4'
  | 5 => '5'
  | 6 => '6'
  | 7 => '7'
  | 8 => '8'
  | _ => '9'

/-- Digit rendering helper for integer coordinate values, most significant
digit first. -/
def renderNatGo : Nat → Nat → List Char → List Char
  | 0, _, acc => acc
  | f + 1, n, acc =>
    let d := digChar (n % 10)
    if n < 10 then d :: acc else renderNatGo f (n / 10) (d :: acc)

/-- Decimal rendering of a natural number. -/
def renderNat (n : ℕ) : List Char := renderNatGo (n + 1) n []

/-- Decimal rendering of an integer, with a leading minus sign when
negative. -/
def renderInt (n : ℤ) : List Char :=
  if n < 0 then '-' :: renderNat n.natAbs else renderNat n.natAbs

/-- A well-formed single-box detection block with label x and the four
given raw coordinate values, exactly as the engine emits it:
label-open, label, label-close, detection-open, a doubly bracketed
4-number list, detection-close. -/
def blockOf (a b c d : ℤ) : List Char :=
  refOpenT ++ 'x' :: (refCloseT ++ detOpenT
    ++ '[' :: '[' :: (renderInt a ++ ',' :: (renderInt b ++ ',' :: (renderInt c
    ++ ',' :: (renderInt d ++ ']' :: ']' :: detCloseT)))))

/-- Modelled from the spec: the section-6 mode-to-instruction table at
default parameters (empty free prompt, no find-term so the literal Total,
no schema so the empty-object placeholder), with the structural
label-open/label-close delimiters substituted for the table's stand-ins
and the default arm for every unlisted mode. -/
def specInstructionTable (mode : String) : String :=
  if mode = "plain_ocr" then "Free OCR."
  else if mode = "markdown" then "Convert the document to markdown."
  else if mode = "tables_csv" then
    "Extract every table and output CSV only. Use commas, minimal quoting. If multiple tables, separate with a line containing \x27---\x27."
  else if mode = "tables_md" then
    "Extract every table as GitHub-flavored Markdown tables. Output only the tables."
  else if mode = "kv_json" then
    "Extract key fields and return strict JSON only. Use this schema (fill the values): \x7b\x7d"
  else if mode = "figure_chart" then
    "Parse the figure. First extract any numeric series as a two-column table (x,y). Then summarize the chart in 2 sentences. Output the table, then a line \x27---\x27, then the summary."
  else if mode = "find_ref" then "Locate <|ref|>Total<|/ref|> in the image."
  else if mode = "layout_map" then
    "Return a JSON array of blocks with fields \x7b\"type\":[\"title\",\"paragraph\",\"table\",\"figure\"],\"box\":[x1,y1,x2,y2]\x7d. Do not include any text content."
  else if mode = "pii_redact" then
    "Find all occurrences of emails, phone numbers, postal addresses, and IBANs. Return a JSON array of objects \x7blabel, text, box:[x1,y1,x2,y2]\x7d."
  else if mode = "multilingual" then
    "Free OCR. Detect the language automatically and output in the same script."
  else if mode = "describe" then "Describe this image. Focus on visible key elements."
  else if mode = "freeform" then "OCR this image."
  else "OCR this image."

/-- Modelled from the spec (section 4.3 wording of claim C7): one pass
that replaces every full label-plus-detection span with just the
whitespace-trimmed label text, removes every standalone grounding marker
not part of a full span, and copies everything else. -/
def cleanSpecGo : Nat → List Char → List Char
  | 0, _ => []
  | _ + 1, [] => []
  | f + 1, c :: cs =>
    match matchAt (c :: cs) with
    | some (lab, _, rest) => pyStripL lab ++ cleanSpecGo f rest
    | none =>
      match chopTok groundTokT (c :: cs) with
      | some rest => cleanSpecGo f rest
      | none => c :: cleanSpecGo f cs

/-- Modelled from the spec: claim C7's cleaning algorithm (trimmed label
for every span, standalone markers dropped, final trim). -/
def cleanSpec_C7 (s : List Char) : List Char :=
  pyStripL (cleanSpecGo (s.length + 1) s)

/-- The spans found by the pattern scan, presented as (gap, label) pieces
followed by the trailing gap: gap text is the text between matches. -/
def findPiecesGo : Nat → List Char → List (List Char × List Char) × List Char
  | 0, _ => ([], [])
  | _ + 1, [] => ([], [])
  | f + 1, c :: cs =>
    match matchAt (c :: cs) with
    | some (lab, _, rest) =>
      let p := findPiecesGo f rest
      (([], lab) :: p.1, p.2)
    | none =>
      match findPiecesGo f cs with
      | ([], tail) => ([], c :: tail)
      | ((g, l) :: ps, tail) => ((c :: g, l) :: ps, tail)

/-- Reassemble pieces: each gap followed by the label that replaced its
span, then the trailing gap. -/
def renderPieces : List (List Char × List Char) × List Char → List Char
  | ([], tail) => tail
  | ((g, l) :: ps, tail) => g ++ l ++ renderPieces (ps, tail)

/-- The amended cleaning algorithm of claim C7, assembled from the span
pieces: every matched span replaced by its captured label text verbatim,
then every remaining grounding-marker occurrence removed from the
substituted text, then the ends trimmed. -/
def cleanAmended_C7 (s : List Char) : List Char :=
  pyStripL (removeMarks (renderPieces (findPiecesGo (s.length + 1) s)))

/-- Whether v is a suffix of u (as a computable check, via reversal). -/
def endsWith (u v : List Char) : Bool :=
  leadTok v.reverse u.reverse

/-! ### Token and scanning lemmas -/

theorem chopTok_append_self (t s : List Char) : chopTok t (t ++ s) = some s := by
  induction t with
  | nil => rfl
  | cons a ts ih => simp [chopTok, ih]

theorem chopTok_structure : ∀ (t s r : List Char), chopTok t s = some r → s = t ++ r := by
  intro t
  induction t with
  | nil =>
    intro s r h
    simp [chopTok] at h
    simp [h]
  | cons a ts ih =>
    intro s r h
    cases s with
    | nil => simp [chopTok] at h
    | cons c cs =>
      by_cases hac : a = c
      · subst hac
        simp [chopTok] at h
        have h2 := ih cs r h
        simp [h2]
      · simp [chopTok, hac] at h

theorem leadTok_self_append (t s : List Char) : leadTok t (t ++ s) = true := by
  simp [leadTok, chopTok_append_self]

theorem leadTok_short (t u : List Char) (h : u.length < t.length) :
    leadTok t u = false := by
  cases hc : chopTok t u with
  | none => simp [leadTok, hc]
  | some r =>
    exfalso
    have h2 := chopTok_structure t u r hc
    rw [h2, List.length_append] at h
    omega

theorem leadTok_long : ∀ (t u v : List Char), t.length ≤ u.length →
    leadTok t (u ++ v) = leadTok t u := by
  intro t
  induction t with
  | nil => intro u v _; simp [leadTok, chopTok]
  | cons a ts ih =>
    intro u v h
    cases u with
    | nil => simp at h
    | cons c cs =>
      by_cases hac : a = c
      · subst hac
        simp only [List.cons_append, leadTok, chopTok, if_pos rfl]
        have := ih cs v (by simpa using h)
        simpa [leadTok] using this
      · simp [leadTok, chopTok, hac]

theorem leadTok_overflow : ∀ (u t v : List Char), leadTok t (u ++ v) = true →
    u.length < t.length → leadTok (t.drop u.length) v = true := by
  intro u
  induction u with
  | nil => intro t v h _; simpa using h
  | cons c cs ih =>
    intro t v h hlen
    cases t with
    | nil => simp at hlen
    | cons a ts =>
      by_cases hac : a = c
      · subst hac
        simp only [List.cons_append, leadTok, chopTok, if_pos rfl] at h
        have := ih ts v (by simpa [leadTok] using h) (by simpa using hlen)
        simpa using this
      · simp [leadTok, chopTok, hac] at h

theorem countTok_nil (t : List Char) (h : t ≠ []) : countTok t [] = 0 := by
  cases t with
  | nil => simp at h
  | cons a ts => simp [countTok, leadTok, chopTok]

theorem countTok_split_b (t : List Char) (ht : t ≠ []) :
    ∀ (a b : List Char),
      (∀ k, k < t.length → 0 < k → leadTok (t.drop k) b = false) →
      countTok t (a ++ b) = countTok t a + countTok t b := by
  intro a
  induction a with
  | nil =>
    intro b _
    simp [countTok_nil t ht]
  | cons c cs ih =>
    intro b hno
    have htail := ih b hno
    have hhead : leadTok t (c :: (cs ++ b)) = leadTok t (c :: cs) := by
      by_cases hlen : t.length ≤ (c :: cs).length
      · have h0 := leadTok_long t (c :: cs) b hlen
        simpa using h0
      · push_neg at hlen
        have h1 : leadTok t (c :: cs) = false := leadTok_short t (c :: cs) hlen
        rw [h1]
        by_cases h2 : leadTok t (c :: (cs ++ b)) = true
        · exfalso
          have h3 := leadTok_overflow (c :: cs) t b (by simpa using h2) hlen
          have h4 := hno (c :: cs).length hlen (by simp)
          rw [h4] at h3
          exact Bool.false_ne_true h3
        · simpa using h2
    calc countTok t (c :: cs ++ b)
        = (if leadTok t (c :: (cs ++ b)) then 1 else 0) + countTok t (cs ++ b) := rfl
      _ = (if leadTok t (c :: cs) then 1 else 0) + (countTok t cs + countTok t b) := by
            rw [hhead, htail]
      _ = ((if leadTok t (c :: cs) then 1 else 0) + countTok t cs) + countTok t b := by
            omega
      _ = countTok t (c :: cs) + countTok t b := rfl

theorem leadTok_mono : ∀ (t u w : List Char), leadTok t u = true →
    leadTok t (u ++ w) = true := by
  intro t
  induction t with
  | nil => intro u w _; simp [leadTok, chopTok]
  | cons a ts ih =>
    intro u w h
    cases u with
    | nil => simp [leadTok, chopTok] at h
    | cons c cs =>
      by_cases hac : a = c
      · subst hac
        simp only [leadTok, chopTok, if_pos rfl] at h
        have := ih cs w (by simpa [leadTok] using h)
        simpa [leadTok, chopTok] using this
      · simp [leadTok, chopTok, hac] at h

theorem leadTok_take : ∀ (u t v : List Char), leadTok t (u ++ v) = true →
    u.length < t.length → t.take u.length = u := by
  intro u
  induction u with
  | nil => intro t v _ _; simp
  | cons c cs ih =>
    intro t v h hlen
    cases t with
    | nil => simp at hlen
    | cons a ts =>
      by_cases hac : a = c
      · subst hac
        simp only [List.cons_append, leadTok, chopTok, if_pos rfl] at h
        have := ih ts v (by simpa [leadTok] using h) (by simpa using hlen)
        simp [List.take, this]
      · simp [leadTok, chopTok, hac] at h

theorem leadTok_self (t : List Char) : leadTok t t = true := by
  have h := leadTok_self_append t []
  simpa using h

theorem endsWith_self (l : List Char) : endsWith l l = true := by
  simp [endsWith, leadTok_self]

theorem endsWith_cons (c : Char) (cs v : List Char) (h : endsWith cs v = true) :
    endsWith (c :: cs) v = true := by
  simp only [endsWith, List.reverse_cons] at h ⊢
  exact leadTok_mono v.reverse cs.reverse [c] h

theorem countTok_split_a (t : List Char) (ht : t ≠ []) :
    ∀ (a b : List Char),
      (∀ k, k < t.length → 0 < k → endsWith a (t.take k) = false) →
      countTok t (a ++ b) = countTok t a + countTok t b := by
  intro a
  induction a with
  | nil =>
    intro b _
    simp [countTok_nil t ht]
  | cons c cs ih =>
    intro b hno
    have hno2 : ∀ k, k < t.length → 0 < k → endsWith cs (t.take k) = false := by
      intro k h1 h2
      by_contra hcon
      have h3 : endsWith cs (t.take k) = true := by
        cases h4 : endsWith cs (t.take k) with
        | false => exact absurd h4 hcon
        | true => rfl
      have h5 := endsWith_cons c cs (t.take k) h3
      rw [hno k h1 h2] at h5
      exact Bool.false_ne_true h5
    have htail := ih b hno2
    have hhead : leadTok t (c :: (cs ++ b)) = leadTok t (c :: cs) := by
      by_cases hlen : t.length ≤ (c :: cs).length
      · have h0 := leadTok_long t (c :: cs) b hlen
        simpa using h0
      · push_neg at hlen
        have h1 : leadTok t (c :: cs) = false := leadTok_short t (c :: cs) hlen
        rw [h1]
        by_cases h2 : leadTok t (c :: (cs ++ b)) = true
        · exfalso
          have h3 := leadTok_take (c :: cs) t b (by simpa using h2) hlen
          have h4 := hno (c :: cs).length hlen (by simp)
          rw [h3, endsWith_self] at h4
          simp at h4
        · simpa using h2
    calc countTok t (c :: cs ++ b)
        = (if leadTok t (c :: (cs ++ b)) then 1 else 0) + countTok t (cs ++ b) := rfl
      _ = (if leadTok t (c :: cs) then 1 else 0) + (countTok t cs + countTok t b) := by
            rw [hhead, htail]
      _ = ((if leadTok t (c :: cs) then 1 else 0) + countTok t cs) + countTok t b := by
            omega
      _ = countTok t (c :: cs) + countTok t b := rfl

theorem countTok_le_right (t : List Char) : ∀ (a b : List Char),
    countTok t b ≤ countTok t (a ++ b) := by
  intro a
  induction a with
  | nil => intro b; simp
  | cons c cs ih =>
    intro b
    calc countTok t b ≤ countTok t (cs ++ b) := ih b
      _ ≤ (if leadTok t (c :: (cs ++ b)) then 1 else 0) + countTok t (cs ++ b) := by omega
      _ = countTok t (c :: cs ++ b) := rfl

theorem countTok_le_left (t : List Char) (ht : t ≠ []) : ∀ (a b : List Char),
    countTok t a ≤ countTok t (a ++ b) := by
  intro a
  induction a with
  | nil => intro b; simp [countTok_nil t ht]
  | cons c cs ih =>
    intro b
    have hind : (if leadTok t (c :: cs) then 1 else 0)
        ≤ (if leadTok t (c :: (cs ++ b)) then 1 else 0) := by
      by_cases h : leadTok t (c :: cs) = true
      · have h2 := leadTok_mono t (c :: cs) b h
        simp only [List.cons_append] at h2
        simp [h, h2]
      · simp [h]
    calc countTok t (c :: cs)
        = (if leadTok t (c :: cs) then 1 else 0) + countTok t cs := rfl
      _ ≤ (if leadTok t (c :: (cs ++ b)) then 1 else 0) + countTok t (cs ++ b) := by
            have := ih b
            omega
      _ = countTok t (c :: cs ++ b) := rfl

theorem countTok_zero_middle (t x m y : List Char) (ht : t ≠ [])
    (h : countTok t (x ++ m ++ y) = 0) : countTok t m = 0 := by
  have h1 : countTok t (m ++ y) ≤ countTok t (x ++ (m ++ y)) := countTok_le_right t x (m ++ y)
  have h2 : countTok t m ≤ countTok t (m ++ y) := countTok_le_left t ht m y
  rw [List.append_assoc] at h
  omega

/-! ### Strip lemmas -/

theorem dropWhile_suffix_decomp (p : Char → Bool) : ∀ (l : List Char),
    ∃ u, l = u ++ l.dropWhile p := by
  intro l
  induction l with
  | nil => exact ⟨[], rfl⟩
  | cons c cs ih =>
    by_cases hc : p c = true
    · obtain ⟨u, hu⟩ := ih
      refine ⟨c :: u, ?_⟩
      simp [List.dropWhile_cons, hc]
      exact hu
    · refine ⟨[], ?_⟩
      simp [List.dropWhile_cons, hc]

theorem dropWhile_head_not (p : Char → Bool) : ∀ (l : List Char) (c : Char) (cs : List Char),
    l.dropWhile p = c :: cs → p c = false := by
  intro l
  induction l with
  | nil => intro c cs h; simp at h
  | cons d ds ih =>
    intro c cs h
    by_cases hd : p d = true
    · rw [List.dropWhile_cons, if_pos hd] at h
      exact ih c cs h
    · rw [List.dropWhile_cons, if_neg hd] at h
      cases h
      simpa using hd

theorem pyStrip_decomp (l : List Char) : ∃ x y, l = x ++ pyStripL l ++ y := by
  obtain ⟨x, hx⟩ := dropWhile_suffix_decomp isSpc l
  obtain ⟨u2, hu2⟩ := dropWhile_suffix_decomp isSpc (l.dropWhile isSpc).reverse
  refine ⟨x, u2.reverse, ?_⟩
  have hd : l.dropWhile isSpc = pyStripL l ++ u2.reverse := by
    have h3 : ((l.dropWhile isSpc).reverse).reverse
        = (u2 ++ ((l.dropWhile isSpc).reverse.dropWhile isSpc)).reverse := by
      rw [← hu2]
    rw [List.reverse_reverse, List.reverse_append] at h3
    exact h3
  rw [List.append_assoc, ← hd]
  exact hx

theorem countTok_strip_zero (t l : List Char) (ht : t ≠ [])
    (h : countTok t l = 0) : countTok t (pyStripL l) = 0 := by
  obtain ⟨x, y, hxy⟩ := pyStrip_decomp l
  rw [hxy] at h
  exact countTok_zero_middle t x (pyStripL l) y ht h

theorem pyStrip_head (l : List Char) (c : Char) (cs : List Char)
    (h : pyStripL l = c :: cs) : isSpc c = false := by
  obtain ⟨u2, hu2⟩ := dropWhile_suffix_decomp isSpc (l.dropWhile isSpc).reverse
  have hd : l.dropWhile isSpc = pyStripL l ++ u2.reverse := by
    have h3 : ((l.dropWhile isSpc).reverse).reverse
        = (u2 ++ ((l.dropWhile isSpc).reverse.dropWhile isSpc)).reverse := by
      rw [← hu2]
    rw [List.reverse_reverse, List.reverse_append] at h3
    exact h3
  rw [h] at hd
  exact dropWhile_head_not isSpc l c (cs ++ u2.reverse) (by simpa using hd)

theorem pyStrip_getLast (l : List Char) (c : Char)
    (h : (pyStripL l).getLast? = some c) : isSpc c = false := by
  have h1 : ((l.dropWhile isSpc).reverse.dropWhile isSpc).head? = some c := by
    have h2 : (pyStripL l).getLast?
        = ((l.dropWhile isSpc).reverse.dropWhile isSpc).head? := by
      simp [pyStripL, List.getLast?_reverse]
    rw [← h2, h]
  cases h3 : (l.dropWhile isSpc).reverse.dropWhile isSpc with
  | nil => rw [h3] at h1; simp at h1
  | cons d ds =>
    rw [h3] at h1
    simp at h1
    rw [← h1]
    exact dropWhile_head_not isSpc (l.dropWhile isSpc).reverse d ds h3

theorem procBoxes_label (lab : List Char) (w h : ℤ) :
    ∀ (bs : List PyVal) (d : Detection), d ∈ procBoxes lab w h bs → d.label = lab := by
  intro bs
  induction bs with
  | nil => intro d hd; simp [procBoxes] at hd
  | cons b rest ih =>
    intro d hd
    cases b with
    | int n =>
      simp only [procBoxes] at hd
      exact ih d hd
    | list elems =>
      simp only [procBoxes] at hd
      split at hd
      · split at hd
        · rcases List.mem_cons.mp hd with heq | hmem
          · rw [heq]
          · exact ih d hmem
        · simp at hd
      · exact ih d hd

theorem parse_label_strip (s : List Char) (w h : ℤ) (d : Detection)
    (hd : d ∈ parse_detections s w h) :
    ∃ raw, d.label = pyStripL raw := by
  simp only [parse_detections] at hd
  rw [List.mem_flatMap] at hd
  obtain ⟨m, hm, hdm⟩ := hd
  refine ⟨m.1, ?_⟩
  cases hle : literalEval (pyStripL m.2) with
  | none => simp only [hle] at hdm; simp at hdm
  | some parsed =>
    simp only [hle] at hdm
    cases hbc : boxCandidates parsed with
    | none => simp only [hbc] at hdm; simp at hdm
    | some bcs =>
      simp only [hbc] at hdm
      exact procBoxes_label (pyStripL m.1) w h bcs d hdm

/-- C9: every Detection returned by parse_detections has a label with no
leading or trailing whitespace, even when whitespace surrounds the label
between the label-open and label-close delimiters in the raw output (the
label group is passed through str.strip at source line 190 before any box
is appended). -/
theorem c9_labels_stripped (s : List Char) (w h : ℤ) (d : Detection)
    (hd : d ∈ parse_detections s w h) :
    (∀ c, d.label.head? = some c → isSpc c = false) ∧
    (∀ c, d.label.getLast? = some c → isSpc c = false) := by
  obtain ⟨raw, hlab⟩ := parse_label_strip s w h d hd
  constructor
  · intro c hc
    rw [hlab] at hc
    cases hps : pyStripL raw with
    | nil => rw [hps] at hc; simp at hc
    | cons a as =>
      rw [hps] at hc
      simp at hc
      rw [← hc]
      exact pyStrip_head raw a as hps
  · intro c hc
    rw [hlab] at hc
    exact pyStrip_getLast raw c hc

/-- C9 witness: the theorem applied to a concrete parse whose raw label is
whitespace-padded, at the head character of the resulting label. -/
theorem c9_labels_stripped_witness :
    (Detection.mk "pad".data [150, 0, 10, 0]).label.head? = some 'p' ∧
      isSpc 'p' = false := by
  refine ⟨rfl, ?_⟩
  have h := c9_labels_stripped
    "<|ref|> pad <|/ref|><|det|>[1500, 0, 100, 0]<|/det|>".data 100 100
    (Detection.mk "pad".data [150, 0, 10, 0]) (by decide)
  exact h.1 'p' rfl

/-! ### Concrete evaluations settling the claims that fail on the code -/

/-- C1 (code bug): a raw output with two well-formed single-box blocks
yields zero Detections, not two, because the greedy coords capture of
DET_BLOCK spans from the first block's opening bracket to the last
closing bracket before the final detection-close token, so the single
match captures an unparseable coords string; for the same reason
clean_grounding_text keeps only the first label and drops the second. -/
theorem c1_two_blocks_drop :
    parse_detections
      "<|ref|>A<|/ref|><|det|>[[1,2,3,4]]<|/det|> mid <|ref|>B<|/ref|><|det|>[[5,6,7,8]]<|/det|>".data
      100 100 = [] ∧
    clean_grounding_text
      "<|ref|>A<|/ref|><|det|>[[1,2,3,4]]<|/det|> mid <|ref|>B<|/ref|><|det|>[[5,6,7,8]]<|/det|>".data
      = "A".data ∧
    findMatches
      "<|ref|>A<|/ref|><|det|>[[1,2,3,4]]<|/det|> mid <|ref|>B<|/ref|><|det|>[[5,6,7,8]]<|/det|>".data
      = [("A".data, "[[1,2,3,4]]<|/det|> mid <|ref|>B<|/ref|><|det|>[[5,6,7,8]]".data)] ∧
    parse_detections "<|ref|>A<|/ref|><|det|>[[1,2,3,4]]<|/det|>".data 100 100
      = [Detection.mk "A".data [0, 0, 0, 0]] := by
  decide

/-- C2 (code bug): when the block with the unbalanced bracket expression
precedes the well-formed block, the greedy coords capture of the invalid
block extends to the closing bracket of the well-formed block, the
combined capture fails to evaluate, and the result is zero Detections
instead of the claimed one; with the well-formed block first the claimed
single Detection is produced. -/
theorem c2_invalid_block_swallows :
    parse_detections
      "<|ref|>B<|/ref|><|det|>[[1,2<|/det|> x <|ref|>A<|/ref|><|det|>[[1,2,3,4]]<|/det|>".data
      100 100 = [] ∧
    parse_detections
      "<|ref|>A<|/ref|><|det|>[[1,2,3,4]]<|/det|> x <|ref|>B<|/ref|><|det|>[[1,2<|/det|>".data
      100 100 = [Detection.mk "A".data [0, 0, 0, 0]] := by
  decide

/-- C5 counterexample: the pixel coordinate is the truncation of the
double-rounded value float(63)/999×111, which is 6, while the exact
floor(63×111/999) is 7, so the claimed floor formula does not hold for
every normalized coordinate and dimension. -/
theorem c5_floor_counterexample :
    scaleCoord 63 111 = 6 ∧ Int.ediv (63 * 111) 999 = 7 ∧
    scaleCoord 63 111 ≠ Int.ediv (63 * 111) 999 ∧
    parse_detections (blockOf 63 63 63 63) 111 111
      = [Detection.mk "x".data [6, 6, 6, 6]] := by
  decide

/-- C5 amended: the scaling is the truncation toward zero of the
floating-point value float(raw)/999×dim computed in binary64; the
concrete instances named by the claim do hold: raw box [999,999,0,0]
against 500×200 gives pixel box [500,200,0,0], and raw 998 against
dimension 999 gives 998 (truncation, not rounding); the exact-floor
reading fails only where the accumulated double rounding crosses an
integer boundary, as at raw 63 against dimension 111. -/
theorem c5_scaling_amended :
    parse_detections "<|ref|>x<|/ref|><|det|>[[999,999,0,0]]<|/det|>".data 500 200
      = [Detection.mk "x".data [500, 200, 0, 0]] ∧
    scaleCoord 998 999 = 998 ∧ Int.ediv (998 * 999) 999 = 998 ∧
    scaleCoord 999 500 = 500 ∧ scaleCoord 999 200 = 200 ∧
    scaleCoord 63 111 = 6 := by
  decide

/-- C6 counterexample: a whitespace-only free prompt in freeform mode
yields the empty instruction after stripping, not the default
instruction, and a whitespace-only schema in kv_json mode yields an empty
schema segment, not the empty-object placeholder: the Python truthiness
tests at source lines 116 and 144 see a nonempty string and strip it. -/
theorem c6_whitespace_counterexample :
    instructionFor "freeform" " " none none = "" ∧
    instructionFor "kv_json" "" none (some " ")
      = "Extract key fields and return strict JSON only. Use this schema (fill the values): " ∧
    ("" : String) ≠ "OCR this image." := by
  decide

/-- C7 counterexample: the substitution at source lines 171-176 replaces
each matched span by the label group exactly as captured, keeping its
surrounding whitespace, while the claimed algorithm inserts the trimmed
label: on a span with a whitespace-padded label the two differ. -/
theorem c7_trim_counterexample :
    clean_grounding_text "a<|ref|> L <|/ref|><|det|>[1]<|/det|>b".data = "a L b".data ∧
    cleanSpec_C7 "a<|ref|> L <|/ref|><|det|>[1]<|/det|>b".data = "aLb".data ∧
    clean_grounding_text "a<|ref|> L <|/ref|><|det|>[1]<|/det|>b".data
      ≠ cleanSpec_C7 "a<|ref|> L <|/ref|><|det|>[1]<|/det|>b".data := by
  decide

/-- C4 counterexample: with the grounding flag unset and a mode outside
the three grounding modes, the returned string can still contain the
grounding marker when the caller passes it inside the free prompt, so the
zero-occurrence part of the claim fails on such inputs. -/
theorem c4_marker_in_prompt_counterexample :
    countTok groundTokT (build_prompt "freeform" "<|grounding|>" false none none false).data = 1 ∧
    ("freeform" ∈ groundingModes) = False := by
  constructor
  · decide
  · decide

/-- C8: whenever the cleaned display text is empty and the parsed
Detections list is non-empty, the response assembly replaces the display
text by the comma-joined labels of the Detections, in detection order
(source lines 345-347). -/
theorem c8_label_fallback (dt : List Char) (boxes : List Detection)
    (h1 : dt = []) (h2 : boxes ≠ []) :
    finalDisplayText dt boxes = pyJoinL ", ".data (boxes.map Detection.label) := by
  rw [finalDisplayText, if_pos ⟨h1, h2⟩]
  rfl

/-- C8 witness: the fallback applied to two concrete detections. -/
theorem c8_label_fallback_witness :
    finalDisplayText []
      [Detection.mk "A".data [1, 2, 3, 4], Detection.mk "B".data [5, 6, 7, 8]]
      = "A, B".data := by
  have h := c8_label_fallback []
    [Detection.mk "A".data [1, 2, 3, 4], Detection.mk "B".data [5, 6, 7, 8]]
    rfl (by decide)
  rw [h]
  decide

set_option maxHeartbeats 2000000 in
set_option maxRecDepth 40000 in
/-- C3: for every mode string, the instruction segment produced by
build_prompt at default parameters equals the section-6 table entry, the
twelve listed modes receiving their table instructions and every other
mode string the default instruction. -/
theorem c3_mode_instruction_table (mode : String) :
    instructionFor mode "" none none = specInstructionTable mode := by
  by_cases h1 : mode = "plain_ocr"
  · subst h1; decide
  by_cases h2 : mode = "markdown"
  · subst h2; decide
  by_cases h3 : mode = "tables_csv"
  · subst h3; decide
  by_cases h4 : mode = "tables_md"
  · subst h4; decide
  by_cases h5 : mode = "kv_json"
  · subst h5; decide
  by_cases h6 : mode = "figure_chart"
  · subst h6; decide
  by_cases h7 : mode = "find_ref"
  · subst h7; decide
  by_cases h8 : mode = "layout_map"
  · subst h8; decide
  by_cases h9 : mode = "pii_redact"
  · subst h9; decide
  by_cases h10 : mode = "multilingual"
  · subst h10; decide
  by_cases h11 : mode = "describe"
  · subst h11; decide
  by_cases h12 : mode = "freeform"
  · subst h12; decide
  simp [instructionFor, specInstructionTable, h1, h2, h3, h4, h5, h6, h7, h8,
    h9, h10, h11, h12]

theorem instrFreeform (p : String) (ft sch : Option String) :
    instructionFor "freeform" p ft sch
      = if p = "" then "OCR this image." else pyStripS p := by
  unfold instructionFor
  rw [if_neg (by decide), if_neg (by decide), if_neg (by decide), if_neg (by decide),
    if_neg (by decide), if_neg (by decide), if_neg (by decide), if_neg (by decide),
    if_neg (by decide), if_neg (by decide), if_neg (by decide), if_pos (by decide)]

theorem instrFindRefSome (p t : String) (sch : Option String) :
    instructionFor "find_ref" p (some t) sch
      = "Locate <|ref|>"
        ++ (if pyStripS t = "" then "Total" else pyStripS t)
        ++ "<|/ref|> in the image." := by
  unfold instructionFor
  rw [if_neg (by decide), if_neg (by decide), if_neg (by decide), if_neg (by decide),
    if_neg (by decide), if_neg (by decide), if_pos (by decide)]

theorem instrFindRefNone (p : String) (sch : Option String) :
    instructionFor "find_ref" p none sch
      = "Locate <|ref|>Total<|/ref|> in the image." := by
  unfold instructionFor
  rw [if_neg (by decide), if_neg (by decide), if_neg (by decide), if_neg (by decide),
    if_neg (by decide), if_neg (by decide), if_pos (by decide)]
  decide

theorem instrKvJsonNone (p : String) (ft : Option String) :
    instructionFor "kv_json" p ft none
      = "Extract key fields and return strict JSON only. Use this schema (fill the values): \x7b\x7d" := by
  unfold instructionFor
  rw [if_neg (by decide), if_neg (by decide), if_neg (by decide), if_neg (by decide),
    if_pos (by decide)]
  decide

theorem instrKvJsonSome (p s0 : String) (ft : Option String) :
    instructionFor "kv_json" p ft (some s0)
      = "Extract key fields and return strict JSON only. Use this schema (fill the values): "
        ++ (if s0 = "" then "\x7b\x7d" else pyStripS s0) := by
  unfold instructionFor
  rw [if_neg (by decide), if_neg (by decide), if_neg (by decide), if_neg (by decide),
    if_pos (by decide)]

/-- C6 amended: the freeform default applies when the prompt is absent or
the empty string, while a nonempty (for instance whitespace-only) prompt
is stripped, so a whitespace-only prompt yields the empty instruction;
the find-term defaults to the literal Total when absent, empty, or
whitespace-only; the schema defaults to the empty-object placeholder when
absent or the empty string, while a nonempty (for instance
whitespace-only) schema is stripped. -/
theorem c6_empty_defaults (p t sch : String) (ft : Option String) :
    (instructionFor "freeform" "" ft (some sch) = "OCR this image.") ∧
    (p ≠ "" → instructionFor "freeform" p ft (some sch) = pyStripS p) ∧
    (pyStripS t = "" → instructionFor "find_ref" p (some t) (some sch)
      = "Locate <|ref|>Total<|/ref|> in the image.") ∧
    (instructionFor "find_ref" p none (some sch)
      = "Locate <|ref|>Total<|/ref|> in the image.") ∧
    (instructionFor "kv_json" p ft none
      = "Extract key fields and return strict JSON only. Use this schema (fill the values): \x7b\x7d") ∧
    (instructionFor "kv_json" p ft (some "")
      = "Extract key fields and return strict JSON only. Use this schema (fill the values): \x7b\x7d") ∧
    (sch ≠ "" → instructionFor "kv_json" p ft (some sch)
      = "Extract key fields and return strict JSON only. Use this schema (fill the values): "
        ++ pyStripS sch) := by
  refine ⟨?_, ?_, ?_, instrFindRefNone p (some sch), instrKvJsonNone p ft, ?_, ?_⟩
  · rw [instrFreeform, if_pos rfl]
  · intro hp
    rw [instrFreeform, if_neg hp]
  · intro h
    rw [instrFindRefSome, if_pos h]
    decide
  · rw [instrKvJsonSome, if_pos rfl]
    decide
  · intro hs
    rw [instrKvJsonSome, if_neg hs]

/-- C6 amended witness: the defaults at concrete whitespace-only
arguments. -/
theorem c6_empty_defaults_witness :
    (instructionFor "freeform" " x " none (some " s ") = pyStripS " x ") ∧
    (instructionFor "find_ref" " x " (some "  ") (some " s ")
      = "Locate <|ref|>Total<|/ref|> in the image.") ∧
    (instructionFor "kv_json" " x " none (some " s ")
      = "Extract key fields and return strict JSON only. Use this schema (fill the values): "
        ++ pyStripS " s ") := by
  have h := c6_empty_defaults " x " "  " " s " none
  exact ⟨h.2.1 (by decide), h.2.2.1 (by decide), h.2.2.2.2.2.2 (by decide)⟩

theorem subGo_pieces : ∀ (f : Nat) (s : List Char),
    subGo f s = renderPieces (findPiecesGo f s) := by
  intro f
  induction f with
  | zero => intro s; simp [subGo, findPiecesGo, renderPieces]
  | succ g ih =>
    intro s
    cases s with
    | nil => simp [subGo, findPiecesGo, renderPieces]
    | cons c cs =>
      cases hm : matchAt (c :: cs) with
      | some trip =>
        obtain ⟨lab, co, rest⟩ := trip
        simp only [subGo, findPiecesGo, hm]
        rw [ih rest]
        simp [renderPieces]
      | none =>
        simp only [subGo, findPiecesGo, hm]
        rw [ih cs]
        cases hp : findPiecesGo g cs with
        | mk ps tail =>
          cases ps with
          | nil => simp [renderPieces]
          | cons pr ps2 =>
            obtain ⟨g2, l2⟩ := pr
            simp [renderPieces]

/-- C7 amended: clean_grounding_text replaces every matched
label-plus-detection span with the label text exactly as captured (not
trimmed), then removes every grounding-marker occurrence remaining in the
substituted text, then trims the ends: it equals the reassembly of the
scan pieces (gaps and verbatim labels) under the same marker removal and
final trim. -/
theorem c7_clean_structure (s : List Char) :
    clean_grounding_text s = cleanAmended_C7 s := by
  rw [clean_grounding_text, cleanAmended_C7, subGo_pieces]

theorem instrPlain (p : String) (ft sc : Option String) :
    instructionFor "plain_ocr" p ft sc = "Free OCR." := by
  unfold instructionFor
  rw [if_pos (by decide)]

theorem instrMarkdown (p : String) (ft sc : Option String) :
    instructionFor "markdown" p ft sc = "Convert the document to markdown." := by
  unfold instructionFor
  rw [if_neg (by decide), if_pos (by decide)]

theorem instrTablesCsv (p : String) (ft sc : Option String) :
    instructionFor "tables_csv" p ft sc
      = "Extract every table and output CSV only. Use commas, minimal quoting. If multiple tables, separate with a line containing \x27---\x27." := by
  unfold instructionFor
  rw [if_neg (by decide), if_neg (by decide), if_pos (by decide)]

theorem instrTablesMd (p : String) (ft sc : Option String) :
    instructionFor "tables_md" p ft sc
      = "Extract every table as GitHub-flavored Markdown tables. Output only the tables." := by
  unfold instructionFor
  rw [if_neg (by decide), if_neg (by decide), if_neg (by decide), if_pos (by decide)]

theorem instrFigure (p : String) (ft sc : Option String) :
    instructionFor "figure_chart" p ft sc
      = "Parse the figure. First extract any numeric series as a two-column table (x,y). Then summarize the chart in 2 sentences. Output the table, then a line \x27---\x27, then the summary." := by
  unfold instructionFor
  rw [if_neg (by decide), if_neg (by decide), if_neg (by decide), if_neg (by decide),
    if_neg (by decide), if_pos (by decide)]

theorem instrLayout (p : String) (ft sc : Option String) :
    instructionFor "layout_map" p ft sc
      = "Return a JSON array of blocks with fields \x7b\"type\":[\"title\",\"paragraph\",\"table\",\"figure\"],\"box\":[x1,y1,x2,y2]\x7d. Do not include any text content." := by
  unfold instructionFor
  rw [if_neg (by decide), if_neg (by decide), if_neg (by decide), if_neg (by decide),
    if_neg (by decide), if_neg (by decide), if_neg (by decide), if_pos (by decide)]

theorem instrPii (p : String) (ft sc : Option String) :
    instructionFor "pii_redact" p ft sc
      = "Find all occurrences of emails, phone numbers, postal addresses, and IBANs. Return a JSON array of objects \x7blabel, text, box:[x1,y1,x2,y2]\x7d." := by
  unfold instructionFor
  rw [if_neg (by decide), if_neg (by decide), if_neg (by decide), if_neg (by decide),
    if_neg (by decide), if_neg (by decide), if_neg (by decide), if_neg (by decide),
    if_pos (by decide)]

theorem instrMulti (p : String) (ft sc : Option String) :
    instructionFor "multilingual" p ft sc
      = "Free OCR. Detect the language automatically and output in the same script." := by
  unfold instructionFor
  rw [if_neg (by decide), if_neg (by decide), if_neg (by decide), if_neg (by decide),
    if_neg (by decide), if_neg (by decide), if_neg (by decide), if_neg (by decide),
    if_neg (by decide), if_pos (by decide)]

theorem instrDescribe (p : String) (ft sc : Option String) :
    instructionFor "describe" p ft sc
      = "Describe this image. Focus on visible key elements." := by
  unfold instructionFor
  rw [if_neg (by decide), if_neg (by decide), if_neg (by decide), if_neg (by decide),
    if_neg (by decide), if_neg (by decide), if_neg (by decide), if_neg (by decide),
    if_neg (by decide), if_neg (by decide), if_pos (by decide)]

theorem instrDefault (mode p : String) (ft sc : Option String)
    (h1 : ¬ mode = "plain_ocr") (h2 : ¬ mode = "markdown")
    (h3 : ¬ mode = "tables_csv") (h4 : ¬ mode = "tables_md")
    (h5 : ¬ mode = "kv_json") (h6 : ¬ mode = "figure_chart")
    (h7 : ¬ mode = "find_ref") (h8 : ¬ mode = "layout_map")
    (h9 : ¬ mode = "pii_redact") (h10 : ¬ mode = "multilingual")
    (h11 : ¬ mode = "describe") (h12 : ¬ mode = "freeform") :
    instructionFor mode p ft sc = "OCR this image." := by
  unfold instructionFor
  rw [if_neg h1, if_neg h2, if_neg h3, if_neg h4, if_neg h5, if_neg h6, if_neg h7,
    if_neg h8, if_neg h9, if_neg h10, if_neg h11, if_neg h12]

theorem chopTok_head_ne (d c : Char) (ds b : List Char) (h : ¬ d = c) :
    leadTok (d :: ds) (c :: b) = false := by
  simp [leadTok, chopTok, h]

theorem marker_no_nl (B : List Char) :
    ∀ k, k < groundTokT.length → 0 < k → leadTok (groundTokT.drop k) ('\n' :: B) = false := by
  intro k h2 h1
  have h3 : groundTokT.length = 13 := rfl
  rw [h3] at h2
  interval_cases k <;> exact chopTok_head_ne _ _ _ B (by decide)

theorem countTok_marker_nl (A B : List Char) :
    countTok groundTokT (A ++ '\n' :: B)
      = countTok groundTokT A + countTok groundTokT B := by
  have h := countTok_split_b groundTokT (by decide) A ('\n' :: B) (marker_no_nl B)
  have h3 : leadTok groundTokT ('\n' :: B) = false :=
    chopTok_head_ne '<' '\n' _ B (by decide)
  have h2 : countTok groundTokT ('\n' :: B) = countTok groundTokT B := by
    calc countTok groundTokT ('\n' :: B)
        = (if leadTok groundTokT ('\n' :: B) then 1 else 0) + countTok groundTokT B := rfl
      _ = countTok groundTokT B := by rw [h3]; simp
  rw [h, h2]

set_option maxRecDepth 40000 in
theorem countTok_instruction (mode p : String) (ft sc : Option String)
    (hp : countTok groundTokT p.data = 0)
    (hft : ∀ t, ft = some t → countTok groundTokT t.data = 0)
    (hsc : ∀ t, sc = some t → countTok groundTokT t.data = 0) :
    countTok groundTokT (instructionFor mode p ft sc).data = 0 := by
  by_cases h1 : mode = "plain_ocr"
  · subst h1; rw [instrPlain]; decide
  by_cases h2 : mode = "markdown"
  · subst h2; rw [instrMarkdown]; decide
  by_cases h3 : mode = "tables_csv"
  · subst h3; rw [instrTablesCsv]; decide
  by_cases h4 : mode = "tables_md"
  · subst h4; rw [instrTablesMd]; decide
  by_cases h5 : mode = "kv_json"
  · subst h5
    cases sc with
    | none => rw [instrKvJsonNone]; decide
    | some s0 =>
      rw [instrKvJsonSome]
      by_cases hs0 : s0 = ""
      · rw [if_pos hs0]; decide
      · rw [if_neg hs0, String.data_append]
        have hsplit := countTok_split_a groundTokT (by decide)
          "Extract key fields and return strict JSON only. Use this schema (fill the values): ".data
          (pyStripS s0).data (by decide)
        rw [hsplit]
        have hzero : countTok groundTokT (pyStripS s0).data = 0 := by
          have hs := hsc s0 rfl
          have hdata : (pyStripS s0).data = pyStripL s0.data := rfl
          rw [hdata]
          exact countTok_strip_zero _ _ (by decide) hs
        have hconst : countTok groundTokT
            "Extract key fields and return strict JSON only. Use this schema (fill the values): ".data
            = 0 := by decide
        omega
  by_cases h6 : mode = "figure_chart"
  · subst h6; rw [instrFigure]; decide
  by_cases h7 : mode = "find_ref"
  · subst h7
    cases ft with
    | none => rw [instrFindRefNone]; decide
    | some t =>
      rw [instrFindRefSome]
      by_cases hts : pyStripS t = ""
      · rw [if_pos hts]; decide
      · rw [if_neg hts, String.data_append, String.data_append, List.append_assoc]
        have hsplitA := countTok_split_a groundTokT (by decide)
          "Locate <|ref|>".data
          ((pyStripS t).data ++ "<|/ref|> in the image.".data) (by decide)
        rw [hsplitA]
        have hsplitB := countTok_split_b groundTokT (by decide)
          (pyStripS t).data "<|/ref|> in the image.".data (by decide)
        rw [hsplitB]
        have hzero : countTok groundTokT (pyStripS t).data = 0 := by
          have hs := hft t rfl
          have hdata : (pyStripS t).data = pyStripL t.data := rfl
          rw [hdata]
          exact countTok_strip_zero _ _ (by decide) hs
        have hcA : countTok groundTokT "Locate <|ref|>".data = 0 := by decide
        have hcB : countTok groundTokT "<|/ref|> in the image.".data = 0 := by decide
        omega
  by_cases h8 : mode = "layout_map"
  · subst h8; rw [instrLayout]; decide
  by_cases h9 : mode = "pii_redact"
  · subst h9; rw [instrPii]; decide
  by_cases h10 : mode = "multilingual"
  · subst h10; rw [instrMulti]; decide
  by_cases h11 : mode = "describe"
  · subst h11; rw [instrDescribe]; decide
  by_cases h12 : mode = "freeform"
  · subst h12
    rw [instrFreeform]
    by_cases hp0 : p = ""
    · rw [if_pos hp0]; decide
    · rw [if_neg hp0]
      have hdata : (pyStripS p).data = pyStripL p.data := rfl
      rw [hdata]
      exact countTok_strip_zero _ _ (by decide) hp
  · rw [instrDefault mode p ft sc h1 h2 h3 h4 h5 h6 h7 h8 h9 h10 h11 h12]; decide

set_option maxRecDepth 40000 in
theorem countTok_caption (mode p : String) (ft sc : Option String) (ic : Bool)
    (hp : countTok groundTokT p.data = 0)
    (hft : ∀ t, ft = some t → countTok groundTokT t.data = 0)
    (hsc : ∀ t, sc = some t → countTok groundTokT t.data = 0) :
    countTok groundTokT (instructionWithCaption mode p ft sc ic).data = 0 := by
  have hi := countTok_instruction mode p ft sc hp hft hsc
  simp only [instructionWithCaption]
  by_cases hcap : (ic && !(mode = "describe")) = true
  · rw [if_pos hcap, String.data_append]
    have hsuf : "\nThen add a one-paragraph description of the image.".data
        = '\n' :: "Then add a one-paragraph description of the image.".data := rfl
    rw [hsuf, countTok_marker_nl]
    have hc : countTok groundTokT
        "Then add a one-paragraph description of the image.".data = 0 := by decide
    omega
  · rw [if_neg hcap]
    exact hi

theorem pyJoin3 (a b c : String) :
    pyJoinS "\n" [a, b, c] = a ++ ("\n" ++ (b ++ ("\n" ++ c))) := by
  simp [pyJoinS, String.append_assoc]

theorem pyJoin2 (a b : String) :
    pyJoinS "\n" [a, b] = a ++ ("\n" ++ b) := by
  simp [pyJoinS, String.append_assoc]

set_option maxRecDepth 40000 in
/-- C4 amended: provided the free prompt, find-term and schema themselves
contain no grounding-marker occurrence, the string returned by
build_prompt starts with the image placeholder, is the newline-join of
the fixed-order parts (image marker, optional grounding marker,
instruction with optional caption suffix), and contains the grounding
marker exactly once when the grounding flag is set or the mode is one of
find_ref, layout_map, pii_redact - never twice even when both conditions
hold - and zero times otherwise. -/
theorem c4_marker_structure (mode p : String) (g ic : Bool) (ft sc : Option String)
    (hp : countTok groundTokT p.data = 0)
    (hft : ∀ t, ft = some t → countTok groundTokT t.data = 0)
    (hsc : ∀ t, sc = some t → countTok groundTokT t.data = 0) :
    (∃ r, build_prompt mode p g ft sc ic = "<image>" ++ r) ∧
    build_prompt mode p g ft sc ic
      = pyJoinS "\n" (["<image>"]
          ++ (if g || groundingModes.contains mode then ["<|grounding|>"] else [])
          ++ [instructionWithCaption mode p ft sc ic]) ∧
    countTok groundTokT (build_prompt mode p g ft sc ic).data
      = (if g || groundingModes.contains mode then 1 else 0) := by
  have hic := countTok_caption mode p ft sc ic hp hft hsc
  refine ⟨?_, rfl, ?_⟩
  · by_cases hg : (g || groundingModes.contains mode) = true
    · refine ⟨"\n" ++ ("<|grounding|>" ++ ("\n" ++ instructionWithCaption mode p ft sc ic)), ?_⟩
      rw [build_prompt, promptParts, if_pos hg]
      exact pyJoin3 "<image>" "<|grounding|>" (instructionWithCaption mode p ft sc ic)
    · refine ⟨"\n" ++ instructionWithCaption mode p ft sc ic, ?_⟩
      rw [build_prompt, promptParts, if_neg hg]
      exact pyJoin2 "<image>" (instructionWithCaption mode p ft sc ic)
  · by_cases hg : (g || groundingModes.contains mode) = true
    · rw [build_prompt, promptParts, if_pos hg, if_pos hg]
      have hl : (["<image>"] ++ ["<|grounding|>"]
            ++ [instructionWithCaption mode p ft sc ic])
          = ["<image>", "<|grounding|>", instructionWithCaption mode p ft sc ic] := rfl
      rw [hl, pyJoin3 "<image>" "<|grounding|>" (instructionWithCaption mode p ft sc ic)]
      rw [String.data_append, String.data_append, String.data_append, String.data_append]
      have h1 : "\n".data = ['\n'] := rfl
      rw [h1]
      have h2 : (['\n'] : List Char) ++ ("<|grounding|>".data
          ++ (['\n'] ++ (instructionWithCaption mode p ft sc ic).data))
          = '\n' :: ("<|grounding|>".data
              ++ ('\n' :: (instructionWithCaption mode p ft sc ic).data)) := by
        simp
      rw [h2, countTok_marker_nl, countTok_marker_nl]
      have h3 : countTok groundTokT "<image>".data = 0 := by decide
      have h4 : countTok groundTokT "<|grounding|>".data = 1 := by decide
      omega
    · rw [build_prompt, promptParts, if_neg hg, if_neg hg]
      have hl : (["<image>"] ++ [] ++ [instructionWithCaption mode p ft sc ic])
          = ["<image>", instructionWithCaption mode p ft sc ic] := rfl
      rw [hl, pyJoin2 "<image>" (instructionWithCaption mode p ft sc ic)]
      rw [String.data_append, String.data_append]
      have h1 : "\n".data = ['\n'] := rfl
      rw [h1]
      have h2 : (['\n'] : List Char) ++ (instructionWithCaption mode p ft sc ic).data
          = '\n' :: (instructionWithCaption mode p ft sc ic).data := by
        simp
      rw [h2, countTok_marker_nl]
      have h3 : countTok groundTokT "<image>".data = 0 := by decide
      omega

/-- C4 amended witness: both conditions hold at once (mode layout_map and
grounding flag set) and the marker still occurs exactly once. -/
theorem c4_marker_structure_witness :
    countTok groundTokT (build_prompt "layout_map" "" true none none false).data = 1 := by
  have h := c4_marker_structure "layout_map" "" true false none none
    (by decide) (by intro t ht; cases ht) (by intro t ht; cases ht)
  have h2 := h.2.2
  rw [if_pos (by decide)] at h2
  exact h2

/-! ### Digit rendering and literal parsing lemmas -/

